import Mathlib

/-!
Device42 provider: the device resource.

A shallow embedding of `resource_device42_device.go`: the four lifecycle
operations of the device resource (create, read, update, delete), the
custom-field helpers (`setCustomFields`, `flattenCustomFields`,
`suppressCustomFieldsDiffs`) and the parts of their environment they touch
(the resource data handle and the HTTP client).

Modelling conventions.

* A Go `map[string]V` is the list of its entries, in the order in which the
  single `range` over that map visits them; its keys are distinct
  (`GoMap.WF`).  The order of an input map is arbitrary, so a statement over
  all lists covers every iteration order Go may pick.
* The HTTP client is a `Server`: the reply to a request is a function of the
  requests sent before it and of the request itself.  A reply is either a
  transport error (`Except.error`, the client's `err != nil`) or the decoded
  result (`Except.ok`).  A request answered with an error status is of the
  second kind: the client reports no error and the result keeps its zero value.
* Every operation returns a `Run`: how it ended (`nil` error, an error, or a
  run-time panic), the resource data afterwards and the requests sent so far.
* Values of the `custom_fields` attribute are strings: the schema declares a
  `TypeMap` without element type, whose values the resource data handle
  always reads as strings.  A key missing from such a map reads as the nil
  interface, here `none`.
* A `float64` decoded from JSON is a finite number, modelled by the rational
  it denotes.
-/

namespace Device42

/-! ## Go maps -/

/-- A Go `map[string]V`, as the list of its entries in `range` order. -/
abbrev GoMap (V : Type) := List (String × V)

namespace GoMap

variable {V : Type}

/-- The keys of a map, in `range` order. -/
def keys (m : GoMap V) : List String := m.map Prod.fst

/-- Well-formedness: no key occurs twice. -/
def WF (m : GoMap V) : Prop := (keys m).Nodup

/-- The lookup `v, ok := m[k]`: `none` when the key is missing. -/
def get? : GoMap V → String → Option V
  | [], _ => none
  | (k', v) :: rest, k => if k' = k then some v else get? rest k

/-- The assignment `m[k] = v`: replaces the entry of `k`, or adds one. -/
def set : GoMap V → String → V → GoMap V
  | [], k, v => [(k, v)]
  | (k', v') :: rest, k, v => if k' = k then (k, v) :: rest else (k', v') :: set rest k v

/-- The comparison `reflect.DeepEqual(a, b)` of two string-valued maps: same number of
entries, and every entry of `a` is an entry of `b`. -/
def deepEqual (a b : GoMap String) : Bool :=
  a.length == b.length && a.all (fun e => get? b e.1 == some e.2)

end GoMap

/-! ## Go strings -/

/-- Go `strings.TrimPrefix(s, pre)`: `s` without the leading `pre`, or `s` itself when
it does not start with `pre`. -/
def trimPrefixOf (s pre : String) : String :=
  if pre.data.isPrefixOf s.data then String.mk (s.data.drop pre.data.length) else s

/-- Go `strings.Join(elems, sep)`. -/
def stringsJoin (elems : List String) (sep : String) : String :=
  String.mk (List.intercalate sep.data (elems.map String.data))

/-- Go `strconv.Itoa`, and the verb `%d`: the decimal string of an integer. -/
def strconvItoa (n : Int) : String := toString n

/-! ## Data -/

/-- A Go `interface{}` holding a value decoded from JSON. -/
inductive Iface where
  | null
  | bool (b : Bool)
  | number (x : ℚ)
  | str (s : String)
  | array (xs : List Iface)
  | object (kvs : List (String × Iface))

/-- The struct `customField`. -/
structure customField where
  Key : String
  Notes : Iface
  Value : Iface

/-- The struct `apiDeviceReadResponse`, with the fields the resource reads
(`custom_fields`, `id`, `name`, `type`); no other field of it is ever used. -/
structure apiDeviceReadResponse where
  CustomFields : List customField
  ID : Int
  Name : String
  Type_ : String

/-- The struct `apiResponse`: the envelope of every write response. -/
structure apiResponse where
  Code : Int
  Msg : List Iface

/-- HTTP methods used by the resource. -/
inductive Method where
  | GET
  | POST
  | PUT
  | DELETE
  deriving DecidableEq, Repr

/-- One request of the client: method, path and form data (in source order). -/
structure Request where
  method : Method
  url : String
  form : List (String × String)
  deriving DecidableEq, Repr

/-- The remote side as the client sees it.  `envelope hist req` is what a request
decoded into `apiResponse` gives after the requests `hist`; `device hist req` what a
request decoded into `apiDeviceReadResponse` gives.  `Except.error` is the `err != nil`
of the client call. -/
structure Server where
  envelope : List Request → Request → Except String apiResponse
  device : List Request → Request → Except String apiDeviceReadResponse

/-- A value handed to `d.Set`. -/
inductive SetValue where
  | int (n : Int)
  | str (s : String)
  | fields (m : GoMap Iface)

/-- The handle `*schema.ResourceData` as the device resource uses it: `d.Id()`, the
attributes read by `d.Get`, the prior-state value of `custom_fields` (the old side of
`d.GetChange`), and the record of the `d.Set` calls made so far.  No operation reads an
attribute after setting it. -/
structure ResourceData where
  id : String
  name : String
  device_type : String
  custom_fields : GoMap String
  custom_fields_old : GoMap String
  sets : List (String × SetValue)

namespace ResourceData

/-- The call `d.SetId(v)`. -/
def SetId (d : ResourceData) (v : String) : ResourceData := { d with id := v }

/-- The call `d.Set(key, value)`; it never changes `d.Id()`. -/
def Set (d : ResourceData) (key : String) (value : SetValue) : ResourceData :=
  { d with sets := d.sets ++ [(key, value)] }

/-- The call `d.HasChange("custom_fields")`: old and new value are not deeply equal. -/
def HasChangeCustomFields (d : ResourceData) : Bool :=
  !(GoMap.deepEqual d.custom_fields_old d.custom_fields)

end ResourceData

/-- How an operation ends: it returns `nil`, returns an error, or panics. -/
inductive Outcome where
  | ok
  | error (e : String)
  | panicked
  deriving DecidableEq, Repr

/-- The result of running an operation. -/
structure Run where
  outcome : Outcome
  d : ResourceData
  log : List Request

/-! ## Custom-field helpers -/

/-- The function `setCustomFields`. -/
def setCustomFields (d : ResourceData) : GoMap String :=
  if d.HasChangeCustomFields then
    d.custom_fields.foldl
      (fun updatedFields kv =>
        if GoMap.get? d.custom_fields_old kv.1 ≠ some kv.2 then GoMap.set updatedFields kv.1 kv.2
        else updatedFields)
      []
  else []

/-- The function `flattenCustomFields`. -/
def flattenCustomFields (xs : List customField) : GoMap Iface :=
  xs.foldl (fun out x => GoMap.set out x.Key x.Value) []

/-- The function `suppressCustomFieldsDiffs`. -/
def suppressCustomFieldsDiffs (k _old _new : String) (d : ResourceData) : Bool :=
  let field := trimPrefixOf k "custom_fields."
  match GoMap.get? d.custom_fields field with
  | some _ => false
  | none => true

/-! ## Requests -/

/-- The primary create call: `POST /device/` with form fields `name` and `type`. -/
def createRequest (name deviceType : String) : Request :=
  ⟨Method.POST, "/device/", [("name", name), ("type", deviceType)]⟩

/-- The strings `fmt.Sprintf("%v:%v", k, v)` collected by the loop of Create. -/
def bulkFields (fields : GoMap String) : List String :=
  fields.map (fun kv => kv.1 ++ ":" ++ kv.2)

/-- The bulk payload of Create: `strings.Join(bulkFields, ",")`. -/
def buildBulkPayload (fields : GoMap String) : String :=
  stringsJoin (bulkFields fields) ","

/-- The bulk custom-field write of Create. -/
def bulkRequest (name : String) (fields : GoMap String) : Request :=
  ⟨Method.PUT, "/1.0/device/custom_field/", [("name", name), ("bulk_fields", buildBulkPayload fields)]⟩

/-- The per-key custom-field write of Update. -/
def fieldRequest (name k v : String) : Request :=
  ⟨Method.PUT, "/1.0/device/custom_field/", [("name", name), ("key", k), ("value", v)]⟩

/-- The lookup of Read. -/
def readRequest (id : String) : Request :=
  ⟨Method.GET, "/1.0/devices/id/" ++ id ++ "/", []⟩

/-- The delete call. -/
def deleteRequest (id : String) : Request :=
  ⟨Method.DELETE, "/1.0/devices/" ++ id ++ "/", []⟩

/-! ## Operations -/

/-- The conversion `int(x)` of a `float64`, with a 64-bit `int`: truncation toward zero.
For a value outside the `int` range Go leaves the result to the implementation; the model
takes the smallest `int`, which is what amd64 gives. -/
def float64ToInt (x : ℚ) : Int :=
  let t := Int.tdiv x.num x.den
  if -(2 ^ 63 : Int) ≤ t ∧ t < 2 ^ 63 then t else -(2 ^ 63 : Int)

/-- The expression `int(r.Msg[1].(float64))`; `none` when it panics (index out of
range, or the element is not a `float64`). -/
def extractId (msg : List Iface) : Option Int :=
  match msg[1]? with
  | some (Iface.number x) => some (float64ToInt x)
  | _ => none

/-- The function `resourceDevice42DeviceRead`. -/
def resourceDevice42DeviceRead (srv : Server) (d : ResourceData) (log : List Request) : Run :=
  let req := readRequest d.id
  match srv.device log req with
  | Except.error _ => ⟨Outcome.ok, d.SetId "", log ++ [req]⟩
  | Except.ok r =>
    let fields := flattenCustomFields r.CustomFields
    let d1 := d.Set "id" (SetValue.int r.ID)
    let d2 := d1.Set "name" (SetValue.str r.Name)
    let d3 := d2.Set "device_type" (SetValue.str r.Type_)
    let d4 := d3.Set "custom_fields" (SetValue.fields fields)
    ⟨Outcome.ok, d4, log ++ [req]⟩

/-- The function `resourceDevice42DeviceCreate`.  The test `d.Get("custom_fields") != nil`
always holds: the handle returns the (possibly empty) map of a `TypeMap` attribute. -/
def resourceDevice42DeviceCreate (srv : Server) (d : ResourceData) (log : List Request) : Run :=
  let name := d.name
  let deviceType := d.device_type
  let req := createRequest name deviceType
  let log1 := log ++ [req]
  match srv.envelope log req with
  | Except.error e => ⟨Outcome.error e, d, log1⟩
  | Except.ok r =>
    if r.Code ≠ 0 then ⟨Outcome.error ("API returned code " ++ strconvItoa r.Code), d, log1⟩
    else
      match extractId r.Msg with
      | none => ⟨Outcome.panicked, d, log1⟩
      | some id =>
        let fields := d.custom_fields
        let req2 := bulkRequest name fields
        let log2 := log1 ++ [req2]
        match srv.envelope log1 req2 with
        | Except.error e => ⟨Outcome.error e, d, log2⟩
        | Except.ok r2 =>
          if r2.Code ≠ 0 then ⟨Outcome.error ("API returned code " ++ strconvItoa r2.Code), d, log2⟩
          else resourceDevice42DeviceRead srv (d.SetId (strconvItoa id)) log2

/-- The loop of Update over `updateList`: one write per entry, stopping at the first
transport error.  Returns that error, if any, and the requests sent so far. -/
def updateLoop (srv : Server) (name : String) : GoMap String → List Request → Option String × List Request
  | [], log => (none, log)
  | (k, v) :: rest, log =>
    let req := fieldRequest name k v
    match srv.envelope log req with
    | Except.error e => (some e, log ++ [req])
    | Except.ok _ => updateLoop srv name rest (log ++ [req])

/-- The function `resourceDevice42DeviceUpdate`. -/
def resourceDevice42DeviceUpdate (srv : Server) (d : ResourceData) (log : List Request) : Run :=
  let name := d.name
  if d.HasChangeCustomFields then
    let updateList := setCustomFields d
    match updateLoop srv name updateList log with
    | (some e, log1) => ⟨Outcome.error e, d, log1⟩
    | (none, log1) => resourceDevice42DeviceRead srv d log1
  else resourceDevice42DeviceRead srv d log

/-- The function `resourceDevice42DeviceDelete`. -/
def resourceDevice42DeviceDelete (srv : Server) (d : ResourceData) (log : List Request) : Run :=
  let req := deleteRequest d.id
  match srv.envelope log req with
  | Except.error e => ⟨Outcome.error e, d, log ++ [req]⟩
  | Except.ok _ => ⟨Outcome.ok, d, log ++ [req]⟩

/-! ## Reading a bulk payload back -/

/-- Modelled from the spec: the reading of a bulk payload, "comma-separated `key:value`
pairs", back as key/value records.  The repository only builds this string; its reader is
the remote side.  The empty payload holds no pair; any other payload is cut at every `,`
and each piece at its first `:`.  Records read back carry no notes. -/
def parseBulkPayload (payload : String) : List customField :=
  if payload.data = [] then []
  else
    (payload.data.splitOn ',').map (fun piece =>
      ⟨String.mk (piece.takeWhile (fun c => c ≠ ':')), Iface.null,
        Iface.str (String.mk ((piece.dropWhile (fun c => c ≠ ':')).drop 1))⟩)

/-! ## Concrete environments -/

/-- A server whose every call fails in transport. -/
def serverDown : Server :=
  ⟨fun _ _ => Except.error "connection refused", fun _ _ => Except.error "connection refused"⟩

/-- A server that accepts the create call (code 0, id 42 at message index 1), answers every
other write with application error code 1, and serves the device on lookup. -/
def serverRejectingFields : Server :=
  ⟨fun _ req =>
      if req.method = Method.POST then Except.ok ⟨0, [Iface.str "device added", Iface.number 42]⟩
      else Except.ok ⟨1, [Iface.str "bad custom field"]⟩,
    fun _ _ => Except.ok ⟨[], 42, "db01", "physical"⟩⟩

/-- A server that accepts every write (code 0, id 42 at message index 1) and serves the
device on lookup. -/
def serverHealthy : Server :=
  ⟨fun _ _ => Except.ok ⟨0, [Iface.str "device added", Iface.number 42]⟩,
    fun _ _ => Except.ok ⟨[⟨"env", Iface.null, Iface.str "prod"⟩], 42, "db01", "physical"⟩⟩

/-- A server that accepts every write (code 0, id 42 at message index 1) but whose lookup
fails. -/
def serverLookupFails : Server :=
  ⟨fun _ _ => Except.ok ⟨0, [Iface.str "device added", Iface.number 42]⟩,
    fun _ _ => Except.error "connection reset"⟩

/-- A server whose create response has code 0 and a one-element message array. -/
def serverShortMsg : Server :=
  ⟨fun _ _ => Except.ok ⟨0, [Iface.str "device added"]⟩,
    fun _ _ => Except.ok ⟨[], 42, "db01", "physical"⟩⟩

/-- A server that accepts the first write and fails in transport afterwards. -/
def serverFailsAfterFirst : Server :=
  ⟨fun hist _ =>
      if hist = [] then Except.ok ⟨0, [Iface.str "device added", Iface.number 42]⟩
      else Except.error "connection reset",
    fun _ _ => Except.ok ⟨[], 42, "db01", "physical"⟩⟩

/-- A server whose lookup is answered, with a status that reports the device missing: the
client returns no error and decodes nothing, so the result is the zero-valued record. -/
def serverNotFound : Server :=
  ⟨fun _ _ => Except.ok ⟨0, []⟩, fun _ _ => Except.ok ⟨[], 0, "", ""⟩⟩

/-- A device about to be created: `name = "db01"`, `type = "physical"`, custom field
`env = prod`, no identifier yet. -/
def deviceNew : ResourceData := ⟨"", "db01", "physical", [("env", "prod")], [], []⟩

/-- A device bound to id 42 whose desired custom fields `env = staging` differ from the
observed `env = prod`, `owner = alice`. -/
def deviceChanged : ResourceData :=
  ⟨"42", "db01", "physical", [("env", "staging")], [("env", "prod"), ("owner", "alice")], []⟩

/-- A device bound to id 42 with two custom fields declared and none observed. -/
def deviceTwoNew : ResourceData :=
  ⟨"42", "db01", "physical", [("env", "prod"), ("owner", "alice")], [], []⟩

end Device42

/-! # Properties -/

namespace Device42

/-! ## Lemmas on Go maps -/

namespace GoMap

variable {V : Type}

theorem get?_eq_none_iff (m : GoMap V) (k : String) : get? m k = none ↔ k ∉ keys m := by
  induction m with
  | nil => simp [get?, keys]
  | cons e rest ih =>
    obtain ⟨k', v⟩ := e
    by_cases h : k' = k
    · simp [get?, keys, h]
    · have h2 : ¬ k = k' := fun h3 => h h3.symm
      simpa [get?, keys, h, h2] using ih

theorem get?_isSome_iff (m : GoMap V) (k : String) : (∃ v, get? m k = some v) ↔ k ∈ keys m := by
  rw [← not_iff_not, ← get?_eq_none_iff]
  cases get? m k <;> simp

theorem get?_of_mem (m : GoMap V) (hm : WF m) (k : String) (v : V) (h : (k, v) ∈ m) :
    get? m k = some v := by
  induction m with
  | nil => simp at h
  | cons e rest ih =>
    obtain ⟨k', v'⟩ := e
    have hnd : k' ∉ keys rest ∧ WF rest := by simpa [WF, keys] using hm
    rcases List.mem_cons.mp h with h1 | h1
    · injection h1 with hk hv
      subst hk; subst hv
      simp [get?]
    · have hk : k ∈ keys rest := List.mem_map.mpr ⟨(k, v), h1, rfl⟩
      have hne : ¬ k' = k := fun h3 => hnd.1 (h3 ▸ hk)
      simpa [get?, hne] using ih hnd.2 h1

theorem mem_of_get? (m : GoMap V) (k : String) (v : V) (h : get? m k = some v) : (k, v) ∈ m := by
  induction m with
  | nil => simp [get?] at h
  | cons e rest ih =>
    obtain ⟨k', v'⟩ := e
    by_cases hk : k' = k
    · subst hk
      simp [get?] at h
      simp [h]
    · simp [get?, hk] at h
      exact List.mem_cons_of_mem _ (ih h)

theorem get?_set (m : GoMap V) (k : String) (v : V) (k2 : String) :
    get? (set m k v) k2 = if k = k2 then some v else get? m k2 := by
  induction m with
  | nil => simp [set, get?]
  | cons e rest ih =>
    obtain ⟨k', v'⟩ := e
    by_cases h : k' = k
    · subst h
      by_cases h2 : k' = k2 <;> simp [set, get?, h2]
    · by_cases h2 : k = k2
      · subst h2
        simp [set, get?, h, ih]
      · simp [set, get?, h, h2, ih]

theorem keys_set (m : GoMap V) (k : String) (v : V) (k2 : String) :
    k2 ∈ keys (set m k v) ↔ k2 = k ∨ k2 ∈ keys m := by
  rw [← get?_isSome_iff, ← get?_isSome_iff, get?_set]
  by_cases h : k = k2
  · simp [h]
  · have h2 : ¬ k2 = k := fun h3 => h h3.symm
    simp [h, h2]

theorem set_of_not_mem (m : GoMap V) (k : String) (v : V) (h : k ∉ keys m) :
    set m k v = m ++ [(k, v)] := by
  induction m with
  | nil => simp [set]
  | cons e rest ih =>
    obtain ⟨k', v'⟩ := e
    have h1 : ¬ k = k' ∧ k ∉ keys rest := by simpa [keys] using h
    have h2 : ¬ k' = k := fun h3 => h1.1 h3.symm
    simp [set, h2, ih h1.2]

theorem WF_set (m : GoMap V) (k : String) (v : V) (hm : WF m) : WF (set m k v) := by
  induction m with
  | nil => simp [set, WF, keys]
  | cons e rest ih =>
    obtain ⟨k', v'⟩ := e
    have hnd : k' ∉ keys rest ∧ WF rest := by simpa [WF, keys] using hm
    by_cases h : k' = k
    · subst h
      simpa [set, WF, keys] using hm
    · have h3 : k' ∉ keys (set rest k v) := by
        rw [keys_set]
        intro h4
        rcases h4 with h4 | h4
        · exact h h4
        · exact hnd.1 h4
      have h5 := ih hnd.2
      simp only [set, h, if_false, WF, keys, List.map_cons, List.nodup_cons]
      exact ⟨h3, h5⟩

end GoMap

/-! ## Lemmas on `flattenCustomFields` -/

/-- The loop of `flattenCustomFields`, from an arbitrary map built so far. -/
theorem flatten_foldl_get? (xs : List customField) (acc : GoMap Iface) (k : String) :
    GoMap.get? (xs.foldl (fun out x => GoMap.set out x.Key x.Value) acc) k =
      match xs.reverse.find? (fun x => x.Key = k) with
      | some x => some x.Value
      | none => GoMap.get? acc k := by
  induction xs generalizing acc with
  | nil => simp
  | cons x rest ih =>
    rw [List.foldl_cons, ih, List.reverse_cons, List.find?_append]
    cases hf : List.find? (fun x => decide (x.Key = k)) rest.reverse with
    | some y => simp
    | none =>
      by_cases hk : x.Key = k
      · simp [GoMap.get?_set, hk]
      · simp [GoMap.get?_set, hk]

theorem flatten_foldl_keys (xs : List customField) (acc : GoMap Iface) (k : String) :
    k ∈ GoMap.keys (xs.foldl (fun out x => GoMap.set out x.Key x.Value) acc) ↔
      k ∈ GoMap.keys acc ∨ ∃ x ∈ xs, x.Key = k := by
  induction xs generalizing acc with
  | nil => simp
  | cons x rest ih =>
    rw [List.foldl_cons, ih, GoMap.keys_set]
    constructor
    · rintro ((h | h) | ⟨y, hy, hk⟩)
      · exact Or.inr ⟨x, List.mem_cons_self _ _, h.symm⟩
      · exact Or.inl h
      · exact Or.inr ⟨y, List.mem_cons_of_mem _ hy, hk⟩
    · rintro (h | ⟨y, hy, hk⟩)
      · exact Or.inl (Or.inr h)
      · rcases List.mem_cons.mp hy with h1 | h1
        · subst h1
          exact Or.inl (Or.inl hk.symm)
        · exact Or.inr ⟨y, h1, hk⟩

theorem flatten_foldl_WF (xs : List customField) (acc : GoMap Iface) (h : GoMap.WF acc) :
    GoMap.WF (xs.foldl (fun out x => GoMap.set out x.Key x.Value) acc) := by
  induction xs generalizing acc with
  | nil => simpa using h
  | cons x rest ih =>
    rw [List.foldl_cons]
    exact ih _ (GoMap.WF_set _ _ _ h)

theorem flatten_foldl_notes (f : customField → Iface) (xs : List customField) (acc : GoMap Iface) :
    (xs.map (fun x => (⟨x.Key, f x, x.Value⟩ : customField))).foldl
        (fun out x => GoMap.set out x.Key x.Value) acc =
      xs.foldl (fun out x => GoMap.set out x.Key x.Value) acc := by
  induction xs generalizing acc with
  | nil => rfl
  | cons x rest ih => simp only [List.map_cons, List.foldl_cons]; exact ih _

end Device42

namespace Device42

/-! ## The diff suppressor -/

theorem trimPrefixOf_append (pre s : String) : trimPrefixOf (pre ++ s) pre = s := by
  have h : pre.data.isPrefixOf (pre.data ++ s.data) = true := by
    rw [List.isPrefixOf_iff_prefix]
    exact List.prefix_append _ _
  simp [trimPrefixOf, String.data_append, h]

/-- C1: `suppressCustomFieldsDiffs` returns true exactly when the field path, with the
prefix `custom_fields.` stripped, is not a key of the desired custom-field mapping, and
false exactly when it is a key; the old and new values do not influence the result. -/
theorem suppressCustomFieldsDiffs_iff_not_key (k old new : String) (d : ResourceData) :
    (suppressCustomFieldsDiffs k old new d = true ↔
      trimPrefixOf k "custom_fields." ∉ GoMap.keys d.custom_fields) ∧
    (suppressCustomFieldsDiffs k old new d = false ↔
      trimPrefixOf k "custom_fields." ∈ GoMap.keys d.custom_fields) ∧
    (∀ old2 new2 : String,
      suppressCustomFieldsDiffs k old2 new2 d = suppressCustomFieldsDiffs k old new d) ∧
    (∀ field : String,
      (suppressCustomFieldsDiffs ("custom_fields." ++ field) old new d = true ↔
        field ∉ GoMap.keys d.custom_fields)) := by
  have key : ∀ (k2 o n : String), (suppressCustomFieldsDiffs k2 o n d = true ↔
      trimPrefixOf k2 "custom_fields." ∉ GoMap.keys d.custom_fields) := by
    intro k2 o n
    rw [← GoMap.get?_eq_none_iff]
    cases h : GoMap.get? d.custom_fields (trimPrefixOf k2 "custom_fields.") <;>
      simp [suppressCustomFieldsDiffs, h]
  refine ⟨key k old new, ?_, ?_, ?_⟩
  · rw [← not_iff_not, Bool.not_eq_false]
    exact key k old new
  · intro old2 new2
    rfl
  · intro field
    have h := key ("custom_fields." ++ field) old new
    rwa [trimPrefixOf_append] at h

/-! ## The custom-field normalizer -/

/-- C8: the mapping returned by `flattenCustomFields` has exactly the keys occurring in
the list (each once), maps every key to the value of the last record carrying it, does not
depend on the notes of the records, and is empty for the empty list. -/
theorem flattenCustomFields_last_wins (xs : List customField) :
    (∀ k, k ∈ GoMap.keys (flattenCustomFields xs) ↔ ∃ x ∈ xs, x.Key = k) ∧
    GoMap.WF (flattenCustomFields xs) ∧
    (∀ k, GoMap.get? (flattenCustomFields xs) k =
      (xs.reverse.find? (fun x => x.Key = k)).map (fun x => x.Value)) ∧
    (∀ (front : List customField) (x : customField) (back : List customField),
      xs = front ++ x :: back → (∀ y ∈ back, y.Key ≠ x.Key) →
        GoMap.get? (flattenCustomFields xs) x.Key = some x.Value) ∧
    (∀ f : customField → Iface,
      flattenCustomFields (xs.map (fun x => ⟨x.Key, f x, x.Value⟩)) = flattenCustomFields xs) ∧
    flattenCustomFields [] = [] := by
  have hget : ∀ k, GoMap.get? (flattenCustomFields xs) k =
      (xs.reverse.find? (fun x => x.Key = k)).map (fun x => x.Value) := by
    intro k
    unfold flattenCustomFields
    rw [flatten_foldl_get?]
    cases List.find? (fun x => decide (x.Key = k)) xs.reverse <;> simp [GoMap.get?]
  refine ⟨?_, ?_, hget, ?_, ?_, rfl⟩
  · intro k
    unfold flattenCustomFields
    rw [flatten_foldl_keys]
    simp [GoMap.keys]
  · exact flatten_foldl_WF xs [] (by simp [GoMap.WF, GoMap.keys])
  · intro front x back hxs hback
    rw [hget, hxs, List.reverse_append, List.reverse_cons, List.find?_append, List.find?_append]
    have h1 : List.find? (fun y => decide (y.Key = x.Key)) back.reverse = none := by
      rw [List.find?_eq_none]
      intro y hy
      simpa using hback y (List.mem_reverse.mp hy)
    simp [h1]
  · intro f
    exact flatten_foldl_notes f xs []

/-- Witness of C8: of two records for `env`, the second gives the value. -/
theorem flattenCustomFields_last_wins_witness :
    GoMap.get? (flattenCustomFields
      [⟨"env", Iface.null, Iface.str "prod"⟩, ⟨"env", Iface.str "n", Iface.str "staging"⟩]) "env" =
      some (Iface.str "staging") :=
  (flattenCustomFields_last_wins
    [⟨"env", Iface.null, Iface.str "prod"⟩, ⟨"env", Iface.str "n", Iface.str "staging"⟩]).2.2.2.1
    [⟨"env", Iface.null, Iface.str "prod"⟩] ⟨"env", Iface.str "n", Iface.str "staging"⟩ [] rfl
    (by simp)

/-! ## Read -/

/-- C5, as stated, fails: the lookup for the bound device 42 is answered with a not-found
status (no client error, zero-valued record); Read keeps the identifier 42 and hands the four
attributes of the empty record to `d.Set`. -/
theorem read_answered_not_found_keeps_id :
    serverNotFound.device [] (readRequest deviceChanged.id) = Except.ok ⟨[], 0, "", ""⟩ ∧
    (resourceDevice42DeviceRead serverNotFound deviceChanged []).outcome = Outcome.ok ∧
    (resourceDevice42DeviceRead serverNotFound deviceChanged []).d.id = "42" ∧
    (resourceDevice42DeviceRead serverNotFound deviceChanged []).d.id ≠ "" ∧
    (resourceDevice42DeviceRead serverNotFound deviceChanged []).d.sets.map Prod.fst =
      ["id", "name", "device_type", "custom_fields"] :=
  ⟨rfl, by decide, by decide, by decide, by decide⟩

/-- C5, amended: when the lookup call of Read fails (the client returns an error), Read
returns no error, the bound identifier is the empty string afterwards, and nothing else of
the resource data is written: every attribute is as before and no `d.Set` call is made.  When
the lookup is answered (no client error), whatever the answer, Read does not take that path:
it returns no error, keeps the bound identifier and hands the id, name, type and flattened
custom fields of the decoded record to `d.Set`.  In both cases exactly one lookup is
sent. -/
theorem read_lookup_failure_clears_id (srv : Server) (d : ResourceData) (log : List Request) :
    (∀ e, srv.device log (readRequest d.id) = Except.error e →
      (resourceDevice42DeviceRead srv d log).outcome = Outcome.ok ∧
      (resourceDevice42DeviceRead srv d log).d.id = "" ∧
      (resourceDevice42DeviceRead srv d log).d.name = d.name ∧
      (resourceDevice42DeviceRead srv d log).d.device_type = d.device_type ∧
      (resourceDevice42DeviceRead srv d log).d.custom_fields = d.custom_fields ∧
      (resourceDevice42DeviceRead srv d log).d.custom_fields_old = d.custom_fields_old ∧
      (resourceDevice42DeviceRead srv d log).d.sets = d.sets) ∧
    (∀ dev, srv.device log (readRequest d.id) = Except.ok dev →
      (resourceDevice42DeviceRead srv d log).outcome = Outcome.ok ∧
      (resourceDevice42DeviceRead srv d log).d.id = d.id ∧
      (resourceDevice42DeviceRead srv d log).d.name = d.name ∧
      (resourceDevice42DeviceRead srv d log).d.device_type = d.device_type ∧
      (resourceDevice42DeviceRead srv d log).d.custom_fields = d.custom_fields ∧
      (resourceDevice42DeviceRead srv d log).d.custom_fields_old = d.custom_fields_old ∧
      (resourceDevice42DeviceRead srv d log).d.sets =
        d.sets ++ [("id", SetValue.int dev.ID), ("name", SetValue.str dev.Name),
          ("device_type", SetValue.str dev.Type_),
          ("custom_fields", SetValue.fields (flattenCustomFields dev.CustomFields))]) ∧
    (resourceDevice42DeviceRead srv d log).log = log ++ [readRequest d.id] := by
  refine ⟨?_, ?_, ?_⟩
  · intro e h
    simp [resourceDevice42DeviceRead, h, ResourceData.SetId]
  · intro dev h
    simp [resourceDevice42DeviceRead, h, ResourceData.Set]
  · cases h : srv.device log (readRequest d.id) <;> simp [resourceDevice42DeviceRead, h]

/-- Witness of C5 amended: a bound device whose lookup call fails. -/
theorem read_lookup_failure_clears_id_witness :
    serverDown.device [] (readRequest deviceChanged.id) = Except.error "connection refused" ∧
    (resourceDevice42DeviceRead serverDown deviceChanged []).outcome = Outcome.ok ∧
    (resourceDevice42DeviceRead serverDown deviceChanged []).d.id = "" :=
  ⟨rfl, ((read_lookup_failure_clears_id serverDown deviceChanged []).1 "connection refused" rfl).1,
    ((read_lookup_failure_clears_id serverDown deviceChanged []).1 "connection refused" rfl).2.1⟩

/-! ## Delete -/

/-- C6, as stated, fails: a transport failure of the delete call is returned by Delete. -/
theorem delete_transport_failure_is_returned :
    serverDown.envelope [] (deleteRequest deviceChanged.id) = Except.error "connection refused" ∧
    (resourceDevice42DeviceDelete serverDown deviceChanged []).outcome =
      Outcome.error "connection refused" ∧
    (resourceDevice42DeviceDelete serverDown deviceChanged []).outcome ≠ Outcome.ok :=
  ⟨rfl, by decide, by decide⟩

/-- C6, amended: whenever the delete call gets a response envelope, whatever its code,
Delete returns no error; a transport failure of the delete call is returned as the error
of Delete.  In both cases exactly one delete request is sent and the resource data is
left as it was. -/
theorem delete_ignores_envelope_code (srv : Server) (d : ResourceData) (log : List Request) :
    (∀ r, srv.envelope log (deleteRequest d.id) = Except.ok r →
      (resourceDevice42DeviceDelete srv d log).outcome = Outcome.ok) ∧
    (∀ e, srv.envelope log (deleteRequest d.id) = Except.error e →
      (resourceDevice42DeviceDelete srv d log).outcome = Outcome.error e) ∧
    (resourceDevice42DeviceDelete srv d log).d = d ∧
    (resourceDevice42DeviceDelete srv d log).log = log ++ [deleteRequest d.id] := by
  cases h : srv.envelope log (deleteRequest d.id) <;> simp [resourceDevice42DeviceDelete, h]

/-- Witness of C6 amended: a delete answered with application error code 1. -/
theorem delete_ignores_envelope_code_witness :
    serverRejectingFields.envelope [] (deleteRequest deviceChanged.id) =
      Except.ok ⟨1, [Iface.str "bad custom field"]⟩ ∧
    (resourceDevice42DeviceDelete serverRejectingFields deviceChanged []).outcome = Outcome.ok :=
  ⟨rfl, (delete_ignores_envelope_code serverRejectingFields deviceChanged []).1
    ⟨1, [Iface.str "bad custom field"]⟩ rfl⟩

end Device42

namespace Device42

/-! ## Create -/

theorem extractId_isSome_iff (msg : List Iface) :
    (extractId msg).isSome = true ↔ 2 ≤ msg.length ∧ ∃ x, msg[1]? = some (Iface.number x) := by
  constructor
  · intro h
    unfold extractId at h
    cases hm : msg[1]? with
    | none => simp [hm] at h
    | some v =>
      have hlen : 1 < msg.length := by
        by_contra hcon
        have hnone : msg[1]? = none := List.getElem?_eq_none (Nat.le_of_not_lt hcon)
        rw [hnone] at hm
        cases hm
      cases v with
      | number x => exact ⟨hlen, x, rfl⟩
      | null => simp [hm] at h
      | bool b => simp [hm] at h
      | str s => simp [hm] at h
      | array xs => simp [hm] at h
      | object kvs => simp [hm] at h
  · rintro ⟨_, x, hx⟩
    simp [extractId, hx]

theorem extractId_eq_none (msg : List Iface) (h : ¬ ∃ x, msg[1]? = some (Iface.number x)) :
    extractId msg = none := by
  cases he : extractId msg with
  | none => rfl
  | some n =>
    have h2 := (extractId_isSome_iff msg).mp (by simp [he])
    exact absurd h2.2 h

theorem float64ToInt_intCast (n : Int) (hlo : -(2 ^ 63 : Int) ≤ n) (hhi : n < 2 ^ 63) :
    float64ToInt (n : ℚ) = n := by
  unfold float64ToInt
  simp only [Rat.num_intCast, Rat.den_intCast, Nat.cast_one, Int.tdiv_one]
  rw [if_pos ⟨hlo, hhi⟩]

/-- C3: when the primary create call succeeds with code 0 and the custom-field write that
follows fails (transport error, or an envelope with non-zero code), Create returns an error
and leaves the resource data untouched: the identifier, empty when Create starts, is still
empty, and `SetId` was never called with the id of the create response. -/
theorem create_field_write_failure_leaves_id_unset (srv : Server) (d : ResourceData)
    (log : List Request) (r : apiResponse) (id : Int)
    (hid : d.id = "")
    (h1 : srv.envelope log (createRequest d.name d.device_type) = Except.ok r)
    (hc : r.Code = 0)
    (hx : extractId r.Msg = some id)
    (hfail : (∃ e, srv.envelope (log ++ [createRequest d.name d.device_type])
          (bulkRequest d.name d.custom_fields) = Except.error e) ∨
        (∃ r2, srv.envelope (log ++ [createRequest d.name d.device_type])
          (bulkRequest d.name d.custom_fields) = Except.ok r2 ∧ r2.Code ≠ 0)) :
    (∃ e, (resourceDevice42DeviceCreate srv d log).outcome = Outcome.error e) ∧
    (resourceDevice42DeviceCreate srv d log).d.id = "" ∧
    (resourceDevice42DeviceCreate srv d log).d = d ∧
    (resourceDevice42DeviceCreate srv d log).log =
      log ++ [createRequest d.name d.device_type, bulkRequest d.name d.custom_fields] := by
  rcases hfail with ⟨e, he⟩ | ⟨r2, he, hc2⟩
  · simp [resourceDevice42DeviceCreate, h1, hc, hx, he, hid]
  · simp [resourceDevice42DeviceCreate, h1, hc, hx, he, hc2, hid]

/-- Witness of C3: the create call is accepted with id 42, the custom-field write is
answered with code 1. -/
theorem create_field_write_failure_leaves_id_unset_witness :
    (∃ e, (resourceDevice42DeviceCreate serverRejectingFields deviceNew []).outcome =
      Outcome.error e) ∧
    (resourceDevice42DeviceCreate serverRejectingFields deviceNew []).d.id = "" :=
  ⟨(create_field_write_failure_leaves_id_unset serverRejectingFields deviceNew []
      ⟨0, [Iface.str "device added", Iface.number 42]⟩ 42 rfl rfl rfl (by decide)
      (Or.inr ⟨⟨1, [Iface.str "bad custom field"]⟩, rfl, by decide⟩)).1,
    (create_field_write_failure_leaves_id_unset serverRejectingFields deviceNew []
      ⟨0, [Iface.str "device added", Iface.number 42]⟩ 42 rfl rfl rfl (by decide)
      (Or.inr ⟨⟨1, [Iface.str "bad custom field"]⟩, rfl, by decide⟩)).2.1⟩

/-- C7, as stated, fails: the create call returns code 0 with 42 at message index 1 and the
custom-field write returns code 0, yet the identifier is empty when Create returns, because
the lookup that ends Create failed. -/
theorem create_final_id_empty_when_lookup_fails :
    serverLookupFails.envelope [] (createRequest deviceNew.name deviceNew.device_type) =
      Except.ok ⟨0, [Iface.str "device added", Iface.number 42]⟩ ∧
    serverLookupFails.envelope [createRequest deviceNew.name deviceNew.device_type]
      (bulkRequest deviceNew.name deviceNew.custom_fields) =
      Except.ok ⟨0, [Iface.str "device added", Iface.number 42]⟩ ∧
    (resourceDevice42DeviceCreate serverLookupFails deviceNew []).outcome = Outcome.ok ∧
    (resourceDevice42DeviceCreate serverLookupFails deviceNew []).d.id = "" ∧
    (resourceDevice42DeviceCreate serverLookupFails deviceNew []).d.id ≠ strconvItoa 42 :=
  ⟨rfl, rfl, by decide, by decide, by decide⟩

/-- C7, amended: when the create call returns code 0 with a number `x` at message index 1
and the custom-field write returns code 0, Create sends exactly one create call (form fields
`name` and `type`), then exactly one bulk custom-field write whose payload is the
comma-separated `key:value` pairs of the declared custom fields, then one lookup, and returns
no error.  It binds the decimal string of `int(x)`, which is `x` itself for an integer within
the `int` range; that identifier is the final one when the lookup succeeds, and the final
identifier is empty when the lookup fails. -/
theorem create_success_binds_decimal_id (srv : Server) (d : ResourceData) (log : List Request)
    (r r2 : apiResponse) (x : ℚ)
    (h1 : srv.envelope log (createRequest d.name d.device_type) = Except.ok r)
    (hc : r.Code = 0)
    (hx : r.Msg[1]? = some (Iface.number x))
    (h2 : srv.envelope (log ++ [createRequest d.name d.device_type])
      (bulkRequest d.name d.custom_fields) = Except.ok r2)
    (hc2 : r2.Code = 0) :
    (resourceDevice42DeviceCreate srv d log).outcome = Outcome.ok ∧
    (resourceDevice42DeviceCreate srv d log).log =
      log ++ [createRequest d.name d.device_type, bulkRequest d.name d.custom_fields,
        readRequest (strconvItoa (float64ToInt x))] ∧
    (createRequest d.name d.device_type).form = [("name", d.name), ("type", d.device_type)] ∧
    (bulkRequest d.name d.custom_fields).form =
      [("name", d.name),
        ("bulk_fields", stringsJoin (d.custom_fields.map (fun kv => kv.1 ++ ":" ++ kv.2)) ",")] ∧
    buildBulkPayload [("env", "prod")] = "env:prod" ∧
    ((∃ dev, srv.device (log ++ [createRequest d.name d.device_type,
        bulkRequest d.name d.custom_fields]) (readRequest (strconvItoa (float64ToInt x))) =
          Except.ok dev) →
      (resourceDevice42DeviceCreate srv d log).d.id = strconvItoa (float64ToInt x)) ∧
    ((∃ e, srv.device (log ++ [createRequest d.name d.device_type,
        bulkRequest d.name d.custom_fields]) (readRequest (strconvItoa (float64ToInt x))) =
          Except.error e) →
      (resourceDevice42DeviceCreate srv d log).d.id = "") ∧
    (∀ n : Int, x = (n : ℚ) → -(2 ^ 63 : Int) ≤ n → n < 2 ^ 63 →
      strconvItoa (float64ToInt x) = strconvItoa n) := by
  have hx2 : extractId r.Msg = some (float64ToInt x) := by simp [extractId, hx]
  have hrun : resourceDevice42DeviceCreate srv d log =
      resourceDevice42DeviceRead srv (d.SetId (strconvItoa (float64ToInt x)))
        (log ++ [createRequest d.name d.device_type, bulkRequest d.name d.custom_fields]) := by
    simp [resourceDevice42DeviceCreate, h1, hc, hx2, h2, hc2, ResourceData.SetId]
  rw [hrun]
  refine ⟨?_, ?_, rfl, rfl, by decide, ?_, ?_, ?_⟩
  · cases h : srv.device (log ++ [createRequest d.name d.device_type,
        bulkRequest d.name d.custom_fields]) (readRequest (strconvItoa (float64ToInt x))) <;>
      simp [resourceDevice42DeviceRead, ResourceData.SetId, h]
  · cases h : srv.device (log ++ [createRequest d.name d.device_type,
        bulkRequest d.name d.custom_fields]) (readRequest (strconvItoa (float64ToInt x))) <;>
      simp [resourceDevice42DeviceRead, ResourceData.SetId, h]
  · rintro ⟨dev, h⟩
    simp [resourceDevice42DeviceRead, ResourceData.SetId, ResourceData.Set, h]
  · rintro ⟨e, h⟩
    simp [resourceDevice42DeviceRead, ResourceData.SetId, h]
  · intro n hn hlo hhi
    rw [hn, float64ToInt_intCast n hlo hhi]

/-- Witness of C7 amended: the scenario `name = "db01"`, `type = "physical"`, custom field
`env = prod`, with id 42 assigned and a successful lookup. -/
theorem create_success_binds_decimal_id_witness :
    (resourceDevice42DeviceCreate serverHealthy deviceNew []).outcome = Outcome.ok ∧
    (resourceDevice42DeviceCreate serverHealthy deviceNew []).log =
      [] ++ [createRequest deviceNew.name deviceNew.device_type,
        bulkRequest deviceNew.name deviceNew.custom_fields,
        readRequest (strconvItoa (float64ToInt 42))] ∧
    (resourceDevice42DeviceCreate serverHealthy deviceNew []).d.id = strconvItoa (float64ToInt 42) :=
  ⟨(create_success_binds_decimal_id serverHealthy deviceNew []
      ⟨0, [Iface.str "device added", Iface.number 42]⟩
      ⟨0, [Iface.str "device added", Iface.number 42]⟩ 42 rfl rfl rfl rfl rfl).1,
    (create_success_binds_decimal_id serverHealthy deviceNew []
      ⟨0, [Iface.str "device added", Iface.number 42]⟩
      ⟨0, [Iface.str "device added", Iface.number 42]⟩ 42 rfl rfl rfl rfl rfl).2.1,
    (create_success_binds_decimal_id serverHealthy deviceNew []
      ⟨0, [Iface.str "device added", Iface.number 42]⟩
      ⟨0, [Iface.str "device added", Iface.number 42]⟩ 42 rfl rfl rfl rfl rfl).2.2.2.2.2.1
      ⟨_, rfl⟩⟩

end Device42

namespace Device42

theorem read_outcome (srv : Server) (d : ResourceData) (log : List Request) :
    (resourceDevice42DeviceRead srv d log).outcome = Outcome.ok := by
  cases h : srv.device log (readRequest d.id) <;> simp [resourceDevice42DeviceRead, h]

theorem read_log (srv : Server) (d : ResourceData) (log : List Request) :
    (resourceDevice42DeviceRead srv d log).log = log ++ [readRequest d.id] := by
  cases h : srv.device log (readRequest d.id) <;> simp [resourceDevice42DeviceRead, h]

/-- C10: after a create response with code 0, the extraction `int(r.Msg[1].(float64))` is
defined exactly when the message array has at least two elements and the element at index 1
is a number.  Under that precondition Create does not panic and goes on to the custom-field
write; for a code-0 response violating it Create aborts by a run-time panic, with the
resource data untouched (no identifier bound) and the create call as the only request sent
(no custom-field write). -/
theorem create_id_extraction_precondition (srv : Server) (d : ResourceData) (log : List Request)
    (r : apiResponse)
    (h1 : srv.envelope log (createRequest d.name d.device_type) = Except.ok r)
    (hc : r.Code = 0) :
    ((extractId r.Msg).isSome = true ↔
      2 ≤ r.Msg.length ∧ ∃ x, r.Msg[1]? = some (Iface.number x)) ∧
    ((2 ≤ r.Msg.length ∧ ∃ x, r.Msg[1]? = some (Iface.number x)) →
      (resourceDevice42DeviceCreate srv d log).outcome ≠ Outcome.panicked ∧
      ∃ rest, (resourceDevice42DeviceCreate srv d log).log =
        log ++ [createRequest d.name d.device_type, bulkRequest d.name d.custom_fields] ++ rest) ∧
    (¬ (2 ≤ r.Msg.length ∧ ∃ x, r.Msg[1]? = some (Iface.number x)) →
      (resourceDevice42DeviceCreate srv d log).outcome = Outcome.panicked ∧
      (resourceDevice42DeviceCreate srv d log).d = d ∧
      (resourceDevice42DeviceCreate srv d log).log = log ++ [createRequest d.name d.device_type]) := by
  refine ⟨extractId_isSome_iff r.Msg, ?_, ?_⟩
  · rintro ⟨_, x, hx⟩
    have hx2 : extractId r.Msg = some (float64ToInt x) := by simp [extractId, hx]
    cases h2 : srv.envelope (log ++ [createRequest d.name d.device_type])
        (bulkRequest d.name d.custom_fields) with
    | error e =>
      refine ⟨?_, [], ?_⟩ <;> simp [resourceDevice42DeviceCreate, h1, hc, hx2, h2]
    | ok r2 =>
      by_cases hc2 : r2.Code = 0
      · have hrun : resourceDevice42DeviceCreate srv d log =
            resourceDevice42DeviceRead srv (d.SetId (strconvItoa (float64ToInt x)))
              (log ++ [createRequest d.name d.device_type,
                bulkRequest d.name d.custom_fields]) := by
          simp [resourceDevice42DeviceCreate, h1, hc, hx2, h2, hc2, ResourceData.SetId]
        rw [hrun, read_outcome, read_log]
        exact ⟨by simp, [readRequest (d.SetId (strconvItoa (float64ToInt x))).id], by simp⟩
      · refine ⟨?_, [], ?_⟩ <;> simp [resourceDevice42DeviceCreate, h1, hc, hx2, h2, hc2]
  · intro hnot
    have hnone : extractId r.Msg = none := by
      apply extractId_eq_none
      rintro ⟨x, hx⟩
      exact hnot ((extractId_isSome_iff r.Msg).mp (by simp [extractId, hx]))
    simp [resourceDevice42DeviceCreate, h1, hc, hnone]

/-- Witness of C10: a code-0 create response whose message array has one element. -/
theorem create_id_extraction_precondition_witness :
    (resourceDevice42DeviceCreate serverShortMsg deviceNew []).outcome = Outcome.panicked ∧
    (resourceDevice42DeviceCreate serverShortMsg deviceNew []).d = deviceNew ∧
    (resourceDevice42DeviceCreate serverShortMsg deviceNew []).log =
      [] ++ [createRequest deviceNew.name deviceNew.device_type] :=
  (create_id_extraction_precondition serverShortMsg deviceNew []
    ⟨0, [Iface.str "device added"]⟩ rfl rfl).2.2 (by simp)

/-! ## Update -/

/-- C4, evaluated where it fails: Update sends the write for the changed key `env`, the
response envelope carries code 1, and Update returns no error; Create, given the same
answer to its custom-field write, returns the error `API returned code 1`. -/
theorem update_ignores_envelope_code :
    serverRejectingFields.envelope [] (fieldRequest "db01" "env" "staging") =
      Except.ok ⟨1, [Iface.str "bad custom field"]⟩ ∧
    (resourceDevice42DeviceUpdate serverRejectingFields deviceChanged []).log =
      [fieldRequest "db01" "env" "staging", readRequest "42"] ∧
    (resourceDevice42DeviceUpdate serverRejectingFields deviceChanged []).outcome = Outcome.ok ∧
    (resourceDevice42DeviceCreate serverRejectingFields deviceNew []).outcome =
      Outcome.error "API returned code 1" :=
  ⟨rfl, by decide, by decide, by decide⟩

end Device42

namespace Device42

/-! ### The update list -/

theorem setCustomFields_loop (old : GoMap String) (new acc : GoMap String)
    (hnew : GoMap.WF new) (hdisj : ∀ k ∈ GoMap.keys new, k ∉ GoMap.keys acc) :
    new.foldl
        (fun updatedFields kv =>
          if GoMap.get? old kv.1 ≠ some kv.2 then GoMap.set updatedFields kv.1 kv.2
          else updatedFields) acc =
      acc ++ new.filter (fun kv => decide (GoMap.get? old kv.1 ≠ some kv.2)) := by
  induction new generalizing acc with
  | nil => simp
  | cons e rest ih =>
    obtain ⟨k, v⟩ := e
    have hnd : k ∉ GoMap.keys rest ∧ GoMap.WF rest := by simpa [GoMap.WF, GoMap.keys] using hnew
    have hk : k ∉ GoMap.keys acc := hdisj k (by simp [GoMap.keys])
    have hrest : ∀ k2 ∈ GoMap.keys rest, k2 ∉ GoMap.keys acc := by
      intro k2 hk2
      exact hdisj k2 (by
        have : k2 ∈ k :: GoMap.keys rest := List.mem_cons_of_mem _ hk2
        simpa [GoMap.keys] using this)
    rw [List.foldl_cons]
    by_cases hch : GoMap.get? old k = some v
    · simp only [hch, ne_eq, not_true_eq_false, if_false]
      rw [ih acc hnd.2 hrest]
      simp [hch]
    · simp only [ne_eq, hch, not_false_eq_true, if_true]
      rw [GoMap.set_of_not_mem acc k v hk, ih _ hnd.2]
      · simp [hch]
      · intro k2 hk2 hmem
        have hmem2 : k2 ∈ GoMap.keys acc ∨ k2 = k := by simpa [GoMap.keys] using hmem
        rcases hmem2 with h | h
        · exact hrest k2 hk2 h
        · exact hnd.1 (h ▸ hk2)

theorem deepEqual_get? (a b : GoMap String) (ha : GoMap.WF a)
    (h : GoMap.deepEqual a b = true) (k v : String) (hkv : GoMap.get? b k = some v) :
    GoMap.get? a k = some v := by
  have hlen : a.length = b.length ∧ ∀ e ∈ a, GoMap.get? b e.1 = some e.2 := by
    simpa [GoMap.deepEqual] using h
  have hsub : GoMap.keys a ⊆ GoMap.keys b := by
    intro k2 hk2
    obtain ⟨e, he, rfl⟩ := List.mem_map.mp hk2
    exact (GoMap.get?_isSome_iff b e.1).mp ⟨e.2, hlen.2 e he⟩
  have hperm : (GoMap.keys a).Perm (GoMap.keys b) :=
    (List.subperm_of_subset ha hsub).perm_of_length_le (by simp [GoMap.keys, hlen.1])
  have hkb : k ∈ GoMap.keys b := (GoMap.get?_isSome_iff b k).mp ⟨v, hkv⟩
  have hka : k ∈ GoMap.keys a := hperm.mem_iff.mpr hkb
  obtain ⟨e, he, hek⟩ := List.mem_map.mp hka
  have h2 := hlen.2 e he
  rw [hek, hkv] at h2
  have he2 : (k, v) ∈ a := by
    have : e = (k, v) := by
      cases e
      simp only [Option.some.injEq] at h2
      simp only at hek
      rw [hek, h2]
    rw [← this]
    exact he
  exact GoMap.get?_of_mem a ha k v he2

theorem setCustomFields_eq_filter (d : ResourceData) (hM : GoMap.WF d.custom_fields)
    (hR : GoMap.WF d.custom_fields_old) :
    setCustomFields d =
      d.custom_fields.filter (fun kv => decide (GoMap.get? d.custom_fields_old kv.1 ≠ some kv.2)) := by
  unfold setCustomFields
  by_cases hch : d.HasChangeCustomFields = true
  · rw [if_pos hch, setCustomFields_loop d.custom_fields_old d.custom_fields [] hM (by simp [GoMap.keys])]
    simp
  · rw [if_neg hch]
    have heq : GoMap.deepEqual d.custom_fields_old d.custom_fields = true := by
      simpa [ResourceData.HasChangeCustomFields] using hch
    symm
    rw [List.filter_eq_nil_iff]
    intro e he
    have := deepEqual_get? _ _ hR heq e.1 e.2 (GoMap.get?_of_mem _ hM e.1 e.2 he)
    simp [this]

theorem updateLoop_sends_prefix (srv : Server) (name : String) (l : GoMap String)
    (log : List Request) :
    ∃ sent : List Request,
      sent <+: l.map (fun kv => fieldRequest name kv.1 kv.2) ∧
      (updateLoop srv name l log).2 = log ++ sent ∧
      ((updateLoop srv name l log).1 = none → sent = l.map (fun kv => fieldRequest name kv.1 kv.2)) := by
  induction l generalizing log with
  | nil => exact ⟨[], by simp [updateLoop]⟩
  | cons e rest ih =>
    obtain ⟨k, v⟩ := e
    cases h : srv.envelope log (fieldRequest name k v) with
    | error err =>
      refine ⟨[fieldRequest name k v], ?_, ?_, ?_⟩
      · simp
      · simp [updateLoop, h]
      · simp [updateLoop, h]
    | ok r =>
      obtain ⟨sent, hpre, hlog, hall⟩ := ih (log ++ [fieldRequest name k v])
      refine ⟨fieldRequest name k v :: sent, ?_, ?_, ?_⟩
      · simpa using hpre
      · simp [updateLoop, h, hlog]
      · intro hnone
        have hnone2 : (updateLoop srv name rest (log ++ [fieldRequest name k v])).1 = none := by
          simpa [updateLoop, h] using hnone
        simp [hall hnone2]

theorem fieldRequest_injective (name : String) :
    Function.Injective (fun kv : String × String => fieldRequest name kv.1 kv.2) := by
  intro a b h
  simp only [fieldRequest, Request.mk.injEq, List.cons.injEq, Prod.mk.injEq, true_and,
    and_true] at h
  exact Prod.ext h.1 h.2

end Device42

namespace Device42

/-- C2, as stated, fails: with `env` and `owner` both declared and neither observed, the
write for `env` fails in transport, Update returns that error, and the write for the
changed key `owner` is never sent. -/
theorem update_stops_at_transport_failure :
    GoMap.get? deviceTwoNew.custom_fields "owner" = some "alice" ∧
    GoMap.get? deviceTwoNew.custom_fields_old "owner" = none ∧
    (resourceDevice42DeviceUpdate serverDown deviceTwoNew []).log =
      [fieldRequest "db01" "env" "prod"] ∧
    fieldRequest "db01" "owner" "alice" ∉
      (resourceDevice42DeviceUpdate serverDown deviceTwoNew []).log ∧
    (resourceDevice42DeviceUpdate serverDown deviceTwoNew []).outcome =
      Outcome.error "connection refused" :=
  ⟨by decide, by decide, by decide, by decide, by decide⟩

theorem updateLoop_all_ok (srv : Server) (name : String) (l : GoMap String) (log : List Request)
    (h : ∀ i q, (l.map (fun kv => fieldRequest name kv.1 kv.2))[i]? = some q →
      ∃ r, srv.envelope (log ++ (l.map (fun kv => fieldRequest name kv.1 kv.2)).take i) q =
        Except.ok r) :
    updateLoop srv name l log = (none, log ++ l.map (fun kv => fieldRequest name kv.1 kv.2)) := by
  induction l generalizing log with
  | nil => simp [updateLoop]
  | cons e rest ih =>
    obtain ⟨k, v⟩ := e
    obtain ⟨r, hr⟩ := h 0 (fieldRequest name k v) (by simp)
    have hr2 : srv.envelope log (fieldRequest name k v) = Except.ok r := by simpa using hr
    have hrest := ih (log ++ [fieldRequest name k v]) (by
      intro i q hq
      obtain ⟨r2, hr3⟩ := h (i + 1) q (by simpa using hq)
      exact ⟨r2, by simpa using hr3⟩)
    simp [updateLoop, hr2, hrest]

theorem updateLoop_first_failure (srv : Server) (name : String) (l : GoMap String)
    (log : List Request) (n : Nat) (q : Request) (e : String)
    (hn : (l.map (fun kv => fieldRequest name kv.1 kv.2))[n]? = some q)
    (hbefore : ∀ i q2, i < n → (l.map (fun kv => fieldRequest name kv.1 kv.2))[i]? = some q2 →
      ∃ r, srv.envelope (log ++ (l.map (fun kv => fieldRequest name kv.1 kv.2)).take i) q2 =
        Except.ok r)
    (hfail : srv.envelope (log ++ (l.map (fun kv => fieldRequest name kv.1 kv.2)).take n) q =
      Except.error e) :
    updateLoop srv name l log =
      (some e, log ++ (l.map (fun kv => fieldRequest name kv.1 kv.2)).take (n + 1)) := by
  induction l generalizing log n with
  | nil => simp at hn
  | cons e0 rest ih =>
    obtain ⟨k, v⟩ := e0
    cases n with
    | zero =>
      have hq : fieldRequest name k v = q := by simpa using hn
      have hf : srv.envelope log (fieldRequest name k v) = Except.error e := by
        rw [hq]
        simpa using hfail
      simp [updateLoop, hf]
    | succ m =>
      obtain ⟨r, hr⟩ := hbefore 0 (fieldRequest name k v) (Nat.succ_pos m) (by simp)
      have hr2 : srv.envelope log (fieldRequest name k v) = Except.ok r := by simpa using hr
      have hrest := ih (log ++ [fieldRequest name k v]) m (by simpa using hn)
        (by
          intro i q2 hi hq2
          obtain ⟨r2, hr3⟩ := hbefore (i + 1) q2 (Nat.succ_lt_succ hi) (by simpa using hq2)
          exact ⟨r2, by simpa using hr3⟩)
        (by simpa using hfail)
      simp [updateLoop, hr2, hrest]

theorem update_of_loop_none (srv : Server) (d : ResourceData) (log log1 : List Request)
    (h : updateLoop srv d.name (setCustomFields d) log = (none, log1)) :
    resourceDevice42DeviceUpdate srv d log = resourceDevice42DeviceRead srv d log1 := by
  by_cases hch : d.HasChangeCustomFields = true
  · simp [resourceDevice42DeviceUpdate, hch, h]
  · have hnil : setCustomFields d = [] := by
      unfold setCustomFields
      rw [if_neg hch]
    rw [hnil] at h
    have hlog : log = log1 := by simpa [updateLoop] using h
    simp [resourceDevice42DeviceUpdate, hch, hlog]

theorem update_of_loop_some (srv : Server) (d : ResourceData) (log log1 : List Request)
    (e : String) (h : updateLoop srv d.name (setCustomFields d) log = (some e, log1)) :
    resourceDevice42DeviceUpdate srv d log = ⟨Outcome.error e, d, log1⟩ := by
  by_cases hch : d.HasChangeCustomFields = true
  · simp [resourceDevice42DeviceUpdate, hch, h]
  · have hnil : setCustomFields d = [] := by
      unfold setCustomFields
      rw [if_neg hch]
    rw [hnil] at h
    simp [updateLoop] at h

/-- C2, amended: let the due writes be the writes `(k, M[k])` for the keys `k` of the desired
mapping `M` whose value differs from the last-observed mapping `R` or that are absent from
`R`: exactly one for each such key, none for an unchanged key or a key present only in `R`,
none at all when `M` and `R` agree.  Update sends the due writes in turn.  When none of them
fails in transport it sends every one of them, then one lookup, and returns no error.  At the
first write that fails in transport it returns that error, having sent the due writes up to
the failed one and no request after it, with the resource data untouched.  In every run the
writes sent are an initial part of the due writes, all of them when Update returns no
error. -/
theorem update_writes_changed_keys (srv : Server) (d : ResourceData) (log : List Request)
    (hM : GoMap.WF d.custom_fields) (hR : GoMap.WF d.custom_fields_old) :
    ∃ due : List Request,
      (∀ q ∈ due, ∃ k v, q = fieldRequest d.name k v ∧
        GoMap.get? d.custom_fields k = some v ∧ GoMap.get? d.custom_fields_old k ≠ some v) ∧
      (∀ k v, GoMap.get? d.custom_fields k = some v →
        GoMap.get? d.custom_fields_old k ≠ some v → due.count (fieldRequest d.name k v) = 1) ∧
      due.Nodup ∧
      ((∀ k, GoMap.get? d.custom_fields k = GoMap.get? d.custom_fields_old k) → due = []) ∧
      ((∀ i q, due[i]? = some q → ∃ r, srv.envelope (log ++ due.take i) q = Except.ok r) →
        (resourceDevice42DeviceUpdate srv d log).outcome = Outcome.ok ∧
        (resourceDevice42DeviceUpdate srv d log).log = log ++ due ++ [readRequest d.id]) ∧
      (∀ n q e, due[n]? = some q →
        (∀ i q2, i < n → due[i]? = some q2 →
          ∃ r, srv.envelope (log ++ due.take i) q2 = Except.ok r) →
        srv.envelope (log ++ due.take n) q = Except.error e →
          (resourceDevice42DeviceUpdate srv d log).outcome = Outcome.error e ∧
          (resourceDevice42DeviceUpdate srv d log).log = log ++ due.take (n + 1) ∧
          (resourceDevice42DeviceUpdate srv d log).d = d) ∧
      ∃ writes lookups : List Request,
        writes <+: due ∧
        (resourceDevice42DeviceUpdate srv d log).log = log ++ writes ++ lookups ∧
        (∀ q ∈ lookups, q = readRequest d.id) ∧
        ((resourceDevice42DeviceUpdate srv d log).outcome = Outcome.ok →
          writes = due ∧ lookups = [readRequest d.id]) := by
  have hfull := setCustomFields_eq_filter d hM hR
  have hMnd : d.custom_fields.Nodup := List.Nodup.of_map Prod.fst hM
  have hallnd : ((setCustomFields d).map (fun kv => fieldRequest d.name kv.1 kv.2)).Nodup := by
    rw [hfull]
    exact (hMnd.filter _).map (fieldRequest_injective d.name)
  have hmem : ∀ q ∈ (setCustomFields d).map (fun kv => fieldRequest d.name kv.1 kv.2),
      ∃ k v, q = fieldRequest d.name k v ∧
        GoMap.get? d.custom_fields k = some v ∧ GoMap.get? d.custom_fields_old k ≠ some v := by
    intro q hq
    obtain ⟨e, he, rfl⟩ := List.mem_map.mp hq
    rw [hfull, List.mem_filter] at he
    exact ⟨e.1, e.2, rfl, GoMap.get?_of_mem _ hM e.1 e.2 he.1, by simpa using he.2⟩
  have hcount : ∀ k v, GoMap.get? d.custom_fields k = some v →
      GoMap.get? d.custom_fields_old k ≠ some v →
        ((setCustomFields d).map (fun kv => fieldRequest d.name kv.1 kv.2)).count
          (fieldRequest d.name k v) = 1 := by
    intro k v hk hne
    apply List.count_eq_one_of_mem hallnd
    refine List.mem_map.mpr ⟨(k, v), ?_, rfl⟩
    rw [hfull, List.mem_filter]
    exact ⟨GoMap.mem_of_get? _ k v hk, by simpa using hne⟩
  refine ⟨(setCustomFields d).map (fun kv => fieldRequest d.name kv.1 kv.2), hmem, hcount,
    hallnd, ?_, ?_, ?_, ?_⟩
  · intro hsame
    apply List.eq_nil_iff_forall_not_mem.mpr
    intro q hq
    obtain ⟨k, v, _, h1, h2⟩ := hmem q hq
    exact h2 (hsame k ▸ h1)
  · intro hok
    have hloop := updateLoop_all_ok srv d.name (setCustomFields d) log hok
    rw [update_of_loop_none srv d log _ hloop, read_outcome, read_log]
    exact ⟨rfl, rfl⟩
  · intro n q e hn hbefore hfail
    have hloop := updateLoop_first_failure srv d.name (setCustomFields d) log n q e hn hbefore hfail
    rw [update_of_loop_some srv d log _ e hloop]
    exact ⟨rfl, rfl, rfl⟩
  · obtain ⟨sent, hpre, hlog, hall⟩ := updateLoop_sends_prefix srv d.name (setCustomFields d) log
    cases hloop : updateLoop srv d.name (setCustomFields d) log with
    | mk err log1 =>
      have hlog1 : log1 = log ++ sent := by simpa [hloop] using hlog
      cases err with
      | some e =>
        refine ⟨sent, [], hpre, ?_, by simp, ?_⟩
        · rw [update_of_loop_some srv d log _ e hloop, hlog1]
          simp
        · intro hok
          rw [update_of_loop_some srv d log _ e hloop] at hok
          simp at hok
      | none =>
        refine ⟨sent, [readRequest d.id], hpre, ?_, by simp, ?_⟩
        · rw [update_of_loop_none srv d log _ hloop, read_log, hlog1]
        · intro _
          exact ⟨hall (by simp [hloop]), rfl⟩

/-- Witness of C2 amended: desired `env = staging` against observed `env = prod`,
`owner = alice`; Update returns no error and has sent exactly one write, for `env`. -/
theorem update_writes_changed_keys_witness :
    GoMap.WF deviceChanged.custom_fields ∧ GoMap.WF deviceChanged.custom_fields_old ∧
    (resourceDevice42DeviceUpdate serverHealthy deviceChanged []).outcome = Outcome.ok ∧
    (resourceDevice42DeviceUpdate serverHealthy deviceChanged []).log =
      [fieldRequest "db01" "env" "staging", readRequest "42"] ∧
    ∃ due : List Request,
      (∀ q ∈ due, ∃ k v, q = fieldRequest deviceChanged.name k v ∧
        GoMap.get? deviceChanged.custom_fields k = some v ∧
        GoMap.get? deviceChanged.custom_fields_old k ≠ some v) ∧
      (∀ k v, GoMap.get? deviceChanged.custom_fields k = some v →
        GoMap.get? deviceChanged.custom_fields_old k ≠ some v →
          due.count (fieldRequest deviceChanged.name k v) = 1) ∧
      due.Nodup ∧
      ((∀ k, GoMap.get? deviceChanged.custom_fields k =
        GoMap.get? deviceChanged.custom_fields_old k) → due = []) ∧
      ((∀ i q, due[i]? = some q →
          ∃ r, serverHealthy.envelope ([] ++ due.take i) q = Except.ok r) →
        (resourceDevice42DeviceUpdate serverHealthy deviceChanged []).outcome = Outcome.ok ∧
        (resourceDevice42DeviceUpdate serverHealthy deviceChanged []).log =
          [] ++ due ++ [readRequest deviceChanged.id]) ∧
      (∀ n q e, due[n]? = some q →
        (∀ i q2, i < n → due[i]? = some q2 →
          ∃ r, serverHealthy.envelope ([] ++ due.take i) q2 = Except.ok r) →
        serverHealthy.envelope ([] ++ due.take n) q = Except.error e →
          (resourceDevice42DeviceUpdate serverHealthy deviceChanged []).outcome =
            Outcome.error e ∧
          (resourceDevice42DeviceUpdate serverHealthy deviceChanged []).log =
            [] ++ due.take (n + 1) ∧
          (resourceDevice42DeviceUpdate serverHealthy deviceChanged []).d = deviceChanged) ∧
      ∃ writes lookups : List Request,
        writes <+: due ∧
        (resourceDevice42DeviceUpdate serverHealthy deviceChanged []).log =
          [] ++ writes ++ lookups ∧
        (∀ q ∈ lookups, q = readRequest deviceChanged.id) ∧
        ((resourceDevice42DeviceUpdate serverHealthy deviceChanged []).outcome = Outcome.ok →
          writes = due ∧ lookups = [readRequest deviceChanged.id]) :=
  ⟨by simp [GoMap.WF, GoMap.keys, deviceChanged], by simp [GoMap.WF, GoMap.keys, deviceChanged],
    by decide, by decide,
    update_writes_changed_keys serverHealthy deviceChanged []
      (by simp [GoMap.WF, GoMap.keys, deviceChanged])
      (by simp [GoMap.WF, GoMap.keys, deviceChanged])⟩

end Device42

namespace Device42

/-! ## Round trip of the bulk payload -/

theorem takeWhile_ne_append (a : Char) (l r : List Char) (h : a ∉ l) :
    (l ++ a :: r).takeWhile (fun c => !decide (c = a)) = l := by
  induction l with
  | nil => simp
  | cons x rest ih =>
    have hx : ¬ a = x ∧ a ∉ rest := by simpa using h
    have hx2 : ¬ x = a := fun h3 => hx.1 h3.symm
    simp only [List.cons_append, List.takeWhile_cons, hx2, decide_False, Bool.not_false, if_true]
    rw [ih hx.2]

theorem dropWhile_ne_append (a : Char) (l r : List Char) (h : a ∉ l) :
    (l ++ a :: r).dropWhile (fun c => !decide (c = a)) = a :: r := by
  induction l with
  | nil => simp
  | cons x rest ih =>
    have hx : ¬ a = x ∧ a ∉ rest := by simpa using h
    have hx2 : ¬ x = a := fun h3 => hx.1 h3.symm
    simp only [List.cons_append, List.dropWhile_cons, hx2, decide_False, Bool.not_false, if_true]
    rw [ih hx.2]

theorem buildBulkPayload_data (M : GoMap String) :
    (buildBulkPayload M).data =
      List.intercalate [','] (M.map (fun kv => kv.1.data ++ ':' :: kv.2.data)) := by
  simp [buildBulkPayload, stringsJoin, bulkFields, String.data_append, Function.comp_def]

theorem flatten_foldl_distinct (M : GoMap String) (acc : GoMap Iface) (hM : GoMap.WF M)
    (hdisj : ∀ k ∈ GoMap.keys M, k ∉ GoMap.keys acc) :
    (M.map (fun kv => (⟨kv.1, Iface.null, Iface.str kv.2⟩ : customField))).foldl
        (fun out x => GoMap.set out x.Key x.Value) acc =
      acc ++ M.map (fun kv => (kv.1, Iface.str kv.2)) := by
  induction M generalizing acc with
  | nil => simp
  | cons e rest ih =>
    obtain ⟨k, v⟩ := e
    have hnd : k ∉ GoMap.keys rest ∧ GoMap.WF rest := by simpa [GoMap.WF, GoMap.keys] using hM
    have hk : k ∉ GoMap.keys acc := hdisj k (by simp [GoMap.keys])
    simp only [List.map_cons, List.foldl_cons]
    rw [GoMap.set_of_not_mem acc k _ hk, ih _ hnd.2]
    · simp
    · intro k2 hk2 hmem
      have hmem2 : k2 ∈ GoMap.keys acc ∨ k2 = k := by simpa [GoMap.keys] using hmem
      rcases hmem2 with h | h
      · exact hdisj k2 (by
          have : k2 ∈ k :: GoMap.keys rest := List.mem_cons_of_mem _ hk2
          simpa [GoMap.keys] using this) h
      · exact hnd.1 (h ▸ hk2)

theorem get?_map_str (M : GoMap String) (k : String) :
    GoMap.get? (M.map (fun kv => (kv.1, Iface.str kv.2))) k = (GoMap.get? M k).map Iface.str := by
  induction M with
  | nil => rfl
  | cons e rest ih =>
    obtain ⟨k2, v⟩ := e
    by_cases h : k2 = k <;> simp [GoMap.get?, h, ih]

/-- C9: for a custom-field mapping whose keys and values contain neither `:` nor `,`,
flattening the records read back from the bulk payload that Create builds gives the
mapping again: the same keys, each with its value (as a string). -/
theorem flatten_bulk_payload_roundtrip (M : GoMap String) (hM : GoMap.WF M)
    (hclean : ∀ kv ∈ M, (':' ∉ kv.1.data ∧ ',' ∉ kv.1.data) ∧ (':' ∉ kv.2.data ∧ ',' ∉ kv.2.data)) :
    flattenCustomFields (parseBulkPayload (buildBulkPayload M)) =
      M.map (fun kv => (kv.1, Iface.str kv.2)) ∧
    ∀ k, GoMap.get? (flattenCustomFields (parseBulkPayload (buildBulkPayload M))) k =
      (GoMap.get? M k).map Iface.str := by
  have hmain : flattenCustomFields (parseBulkPayload (buildBulkPayload M)) =
      M.map (fun kv => (kv.1, Iface.str kv.2)) := by
    cases hMe : M with
    | nil => simp [parseBulkPayload, buildBulkPayload_data, flattenCustomFields, List.intercalate]
    | cons e rest =>
      rw [← hMe]
      have hne : (buildBulkPayload M).data ≠ [] := by
        rw [buildBulkPayload_data, hMe]
        cases rest <;> simp [List.intercalate]
      have hsplit : (buildBulkPayload M).data.splitOn ',' =
          M.map (fun kv => kv.1.data ++ ':' :: kv.2.data) := by
        rw [buildBulkPayload_data]
        apply List.splitOn_intercalate
        · intro l hl
          obtain ⟨kv, hkv, rfl⟩ := List.mem_map.mp hl
          have h := hclean kv hkv
          simp [h.1.2, h.2.2]
        · simp [hMe]
      have hparse : parseBulkPayload (buildBulkPayload M) =
          M.map (fun kv => (⟨kv.1, Iface.null, Iface.str kv.2⟩ : customField)) := by
        unfold parseBulkPayload
        rw [if_neg hne, hsplit, List.map_map]
        apply List.map_congr_left
        intro kv hkv
        have h := hclean kv hkv
        simp [takeWhile_ne_append ':' kv.1.data kv.2.data h.1.1,
          dropWhile_ne_append ':' kv.1.data kv.2.data h.1.1]
      rw [hparse]
      unfold flattenCustomFields
      rw [flatten_foldl_distinct M [] hM (by simp [GoMap.keys])]
      simp
  refine ⟨hmain, ?_⟩
  intro k
  rw [hmain, get?_map_str]

/-- Witness of C9: the mapping `env = prod`, `owner = alice`. -/
theorem flatten_bulk_payload_roundtrip_witness :
    buildBulkPayload [("env", "prod"), ("owner", "alice")] = "env:prod,owner:alice" ∧
    flattenCustomFields (parseBulkPayload (buildBulkPayload [("env", "prod"), ("owner", "alice")])) =
      [("env", Iface.str "prod"), ("owner", Iface.str "alice")] :=
  ⟨by decide,
    (flatten_bulk_payload_roundtrip [("env", "prod"), ("owner", "alice")]
      (by simp [GoMap.WF, GoMap.keys]) (by decide)).1⟩

end Device42
